import Mathlib

/-!
# Verification of the Hybrid Access Layer (HAL)

Shallow embedding of `app/services/hal/` (models.py, db_backend.py,
hybrid_access_layer.py, __init__.py) together with the storage backends'
listing semantics (`list_objects_with_dirs` with delimiter `'/'`), and
proofs about the storage-mode inference, batch inference, virtual listing
merge/dedup, and error policies.

Modelling conventions:
* The object store is a finite list of objects (`key`, `size`,
  `lastModified`, `content`).  An S3 `list_objects_v2(Prefix, Delimiter='/')`
  call yields as `Contents` the objects whose key extends the requested
  path with no further `'/'` (immediate children), and as `CommonPrefixes`
  the distinct `path ++ segment ++ "/"` for deeper objects.  The local
  filesystem backend is modelled the same way over its own object list
  (`local.py` lists one directory level and produces the same dict shape).
* `s3Fail` models a raising backend failure (e.g. a botocore connection
  error, which is not a `ClientError` and therefore escapes the backend's
  own `except ClientError` handlers).  `localFail` models the local
  backend's internal failure: `local.py` catches its own exceptions and
  yields empty listings / `None` loads, so it never raises.
* The relational session is modelled as available: the HAL code performs
  its `Operation`/`Process` queries outside of any try/except, so a
  relational failure would simply propagate; no claim depends on it.
* Python string truthiness (`if content:`, `storage_address or default`,
  f-string rendering of `None`) is embedded explicitly (`pyStr`,
  `truthyStr`, `logTruthy`).
-/

namespace LabHAL

/-! ## Python-semantics helpers -/

/-- Python f-string rendering of an optional string (`None` renders as
`"None"`). -/
def pyStr : Option String → String
  | none => "None"
  | some s => s

/-- Python f-string rendering of an optional int. -/
def pyNat : Option Nat → String
  | none => "None"
  | some n => toString n

/-- Python truthiness of an optional string. -/
def truthyStr : Option String → Bool
  | none => false
  | some s => s ≠ ""

/-- Truthiness of an `Operation.log` column (`op.log` / the SQL filter
`log IS NOT NULL AND log != ''`). -/
def logTruthy : Option String → Bool
  | none => false
  | some s => s ≠ ""

/-- `s.startswith(pre)` (code-point level, like Python). -/
def pfxOf (pre s : String) : Bool :=
  pre.data.isPrefixOf s.data

/-- `s.endswith(suf)`. -/
def sfxOf (suf s : String) : Bool :=
  suf.data.isSuffixOf s.data

/-- `len(s)` (code points, the unit of Python slicing). -/
def strLen (s : String) : Nat :=
  s.data.length

/-- `s[n:]`. -/
def dropChars (s : String) (n : Nat) : String :=
  String.mk (s.data.drop n)

/-- `c in s` for a single character. -/
def hasChar (s : String) (c : Char) : Bool :=
  s.data.contains c

/-- `s.lower()` (ASCII case folding, the only case HAL compares). -/
def lowerStr (s : String) : String :=
  String.mk (s.data.map Char.toLower)

/-- `int(s)` for a plain ASCII-digit string; anything else is the
`ValueError` path, i.e. `none`. -/
def chToNat? (cs : List Char) : Option Nat :=
  if cs ≠ [] && cs.all Char.isDigit then
    some (cs.foldl (fun n c => n * 10 + (c.toNat - 48)) 0)
  else none

/-- `int(s)` on a string. -/
def strToNat? (s : String) : Option Nat :=
  chToNat? s.data

/-- `s.split(sep)` for a non-empty separator: leftmost non-overlapping
occurrences, empty pieces kept.  Structural recursion on a fuel bound
(one unit per consumed character) so the definition evaluates by kernel
reduction. -/
def chSplitOnAux (sep : List Char) : Nat → List Char → List Char → List (List Char)
  | _, [], acc => [acc.reverse]
  | 0, cs, acc => [acc.reverse ++ cs]
  | fuel + 1, c :: rest, acc =>
    if sep.isPrefixOf (c :: rest) then
      acc.reverse :: chSplitOnAux sep fuel (rest.drop (sep.length - 1)) []
    else chSplitOnAux sep fuel rest (c :: acc)

/-- `s.split(sep)`. -/
def strSplitOn (s sep : String) : List String :=
  (chSplitOnAux sep.data (s.data.length + 1) s.data []).map String.mk

/-- `s.split('/')[-1]`. -/
def lastSeg (s : String) : String :=
  (strSplitOn s "/").getLastD ""

/-- `s.rstrip('/')`. -/
def rstripSlash (s : String) : String :=
  String.mk ((s.data.reverse.dropWhile (fun c => c = '/')).reverse)

/-- `s.strip('/')`. -/
def stripSlash (s : String) : String :=
  String.mk (((s.data.dropWhile (fun c => c = '/')).reverse.dropWhile
    (fun c => c = '/')).reverse)

/-- Python `sub in s` for a non-empty needle. -/
def containsStr (s sub : String) : Bool :=
  (strSplitOn s sub).length ≥ 2



/-- `StorageMode` enum of models.py. -/
inductive StorageMode where
  | S3
  | LOCAL
  | UNKNOWN
deriving DecidableEq, Repr

/-- `StorageMode.value` strings. -/
def StorageMode.value : StorageMode → String
  | .S3 => "s3"
  | .LOCAL => "local"
  | .UNKNOWN => "unknown"

/-- `StorageMode.from_string`: `None` maps to UNKNOWN, otherwise
`StorageMode(value.lower())` with `ValueError` handled as UNKNOWN. -/
def StorageMode.from_string (v : Option String) : StorageMode :=
  match v with
  | none => .UNKNOWN
  | some s =>
    if lowerStr s = "s3" then .S3
    else if lowerStr s = "local" then .LOCAL
    else .UNKNOWN

/-- `ContentType` enum of models.py. -/
inductive ContentType where
  | OPERATION_LOG
  | PROTOCOL_YAML
  | MANIPULATE_YAML
  | PROCESS_DATA
  | MEASUREMENT
  | OTHER
deriving DecidableEq, Repr

/-- `DataSource` enum of models.py. -/
inductive DataSource where
  | FILE
  | DATABASE
  | VIRTUAL
deriving DecidableEq, Repr

/-- `ContentItem` dataclass of models.py (`last_modified` is already the
ISO-8601 string the code stores there). -/
structure ContentItem where
  name : String
  path : String
  type : String
  size : Nat
  last_modified : Option String
  content_type : ContentType
  source : DataSource
  backend : Option String := none
deriving DecidableEq, Repr

/-- `StorageInfo` dataclass of models.py (`data_sources` dict kept as an
association list in insertion order). -/
structure StorageInfo where
  mode : StorageMode
  storage_address : String
  full_path : String
  data_sources : List (String × String) := []
  warning : Option String := none
  inferred : Bool := false
  is_hybrid : Bool := false
  s3_path : Option String := none
  local_path : Option String := none
deriving DecidableEq, Repr

/-- Row of the `Operation` table (the columns HAL reads). -/
structure Operation where
  id : Nat
  process_id : Nat
  log : Option String
  finished_at : Option String
deriving DecidableEq, Repr

/-- Row of the `Process` table (the columns HAL reads). -/
structure Process where
  id : Nat
  run_id : Nat
deriving DecidableEq, Repr

/-- Row of the `Run` table (the columns HAL reads/writes; `deleted` stands
for `deleted_at IS NOT NULL`). -/
structure Run where
  id : Nat
  storage_address : Option String
  storage_mode : Option String
  deleted : Bool := false
deriving DecidableEq, Repr

/-- A stored object of a backend (S3 object or local file). -/
structure StorageObj where
  key : String
  size : Nat
  lastModified : Option String
  content : String
deriving DecidableEq, Repr

/-- The external state a HAL call runs against: the two file backends and
the relational store. -/
structure HALState where
  s3Objs : List StorageObj
  s3Fail : Bool
  localObjs : List StorageObj
  localFail : Bool
  bucket : String
  runs : List Run
  processes : List Process
  operations : List Operation
deriving DecidableEq, Repr

/-! ## DBDataBackend (db_backend.py) -/

/-- `DBDataBackend.is_operation_log_path`:
`"operations/" in path and path.endswith("log.txt")`. -/
def is_operation_log_path (path : String) : Bool :=
  containsStr path "operations/" && sfxOf "log.txt" path

/-- `DBDataBackend.extract_operation_id`: `re.search(r'operations/(\d+)/', path)`.
Scanning left to right, the first occurrence of `"operations/"` followed by a
non-empty ASCII digit run followed by `'/'` yields that number. -/
def extract_operation_id (path : String) : Option Nat :=
  ((strSplitOn path "operations/").tail).findSome? (fun part =>
    let ds := part.data.takeWhile Char.isDigit
    if ds ≠ [] && ['/'].isPrefixOf (part.data.drop ds.length) then chToNat? ds
    else none)

/-- The anchored pattern `^operations/(\d+)/?$` of
`DBDataBackend.list_operation_logs` (ASCII digits). -/
def matchOpDir (pfx : String) : Option Nat :=
  if pfxOf "operations/" pfx then
    let rest := pfx.data.drop (strLen "operations/")
    let core := if ['/'].isSuffixOf rest then rest.dropLast else rest
    chToNat? core
  else none

/-- Ids of the operations of a run whose `log` is truthy, in table order:
`[op.id for op in operations-joined-to-run if op.log]`. -/
def opIdsWithLog (σ : HALState) (run_id : Nat) : List Nat :=
  ((σ.operations.filter (fun op =>
      (σ.processes.any (fun p => p.id == op.process_id && p.run_id == run_id))
        && logTruthy op.log)).map (fun op => op.id))

/-- `DBDataBackend.list_virtual_directories`. -/
def list_virtual_directories (σ : HALState) (run_id : Nat) (pfx : String) :
    List ContentItem :=
  (if pfx = "" ∧ opIdsWithLog σ run_id ≠ [] then
    [{ name := "operations", path := "operations/", type := "directory",
       size := 0, last_modified := none, content_type := .OTHER,
       source := .VIRTUAL }]
   else []) ++
  (if pfx = "operations/" ∨ pfx = "operations" then
    (opIdsWithLog σ run_id).map (fun i =>
      { name := toString i, path := s!"operations/{i}/", type := "directory",
        size := 0, last_modified := none, content_type := .OTHER,
        source := .VIRTUAL })
   else [])

/-- `DBDataBackend.list_operation_logs`. -/
def list_operation_logs (σ : HALState) (run_id : Nat) (pfx : String) :
    List ContentItem :=
  if pfx = "" ∨ pfx = "operations/" ∨ pfx = "operations" then []
  else
    match matchOpDir pfx with
    | none => []
    | some opId =>
      match σ.operations.find? (fun op => op.id == opId) with
      | none => []
      | some op =>
        if logTruthy op.log then
          match σ.processes.find? (fun p =>
              p.id == op.process_id && p.run_id == run_id) with
          | some _ =>
            [{ name := "log.txt", path := s!"operations/{op.id}/log.txt",
               type := "file", size := (op.log.getD "").utf8ByteSize,
               last_modified := op.finished_at,
               content_type := .OPERATION_LOG, source := .DATABASE }]
          | none => []
        else []

/-- `DBDataBackend.load_operation_log`. -/
def load_operation_log (σ : HALState) (operation_id : Nat) : Option String :=
  match σ.operations.find? (fun op => op.id == operation_id) with
  | some op => if logTruthy op.log then op.log else none
  | none => none

/-- The relational probe `does any operation of this run have truthy log`
(the `first() is not None` query of `_do_infer_storage_mode` /
`get_storage_info`). -/
def hasDbLogs (σ : HALState) (run_id : Nat) : Bool :=
  σ.operations.any (fun op =>
    logTruthy op.log &&
    σ.processes.any (fun p => p.id == op.process_id && p.run_id == run_id))

/-! ## Backend listing semantics (`list_objects_with_dirs`, delimiter `'/'`) -/

/-- First-seen deduplication of strings (S3 returns each common prefix
once). -/
def dedupStr : List String → List String → List String
  | [], _ => []
  | s :: rest, seen =>
    if seen.contains s then dedupStr rest seen
    else s :: dedupStr rest (s :: seen)

/-- The `Contents` of a delimiter-`'/'` listing at `pfx`: objects whose key
extends `pfx` with no further `'/'` (immediate children). -/
def directContents (objs : List StorageObj) (pfx : String) : List StorageObj :=
  objs.filter (fun o =>
    pfxOf pfx o.key && !(hasChar (dropChars o.key (strLen pfx)) '/'))

/-- The `CommonPrefixes` of a delimiter-`'/'` listing at `pfx`: the distinct
`pfx ++ segment ++ "/"` of deeper objects. -/
def commonDirs (objs : List StorageObj) (pfx : String) : List String :=
  dedupStr
    ((objs.filter (fun o =>
        pfxOf pfx o.key && hasChar (dropChars o.key (strLen pfx)) '/')).map
      (fun o =>
        (pfx ++ String.mk ((o.key.data.drop (strLen pfx)).takeWhile
          (fun c => c ≠ '/'))).push '/'))
    []

/-- `S3StorageBackend.list_objects_with_dirs`: raises on a connection-level
failure, else returns `(Contents, CommonPrefixes)` (a `ClientError` is
caught inside the backend and yields an empty listing, which the empty
object list already represents). -/
def s3ListWithDirs (σ : HALState) (pfx : String) :
    Except Unit (List StorageObj × List String) :=
  if σ.s3Fail then .error ()
  else .ok (directContents σ.s3Objs pfx, commonDirs σ.s3Objs pfx)

/-- `LocalStorageBackend.list_objects_with_dirs`: never raises (local.py
catches its own exceptions), an internal failure yields an empty listing. -/
def localListWithDirs (σ : HALState) (pfx : String) :
    List StorageObj × List String :=
  if σ.localFail then ([], [])
  else (directContents σ.localObjs pfx, commonDirs σ.localObjs pfx)

/-- `S3StorageBackend.load`: raises on a connection-level failure;
`NoSuchKey` (absent object) yields `None`. -/
def s3Load (σ : HALState) (path : String) : Except Unit (Option String) :=
  if σ.s3Fail then .error ()
  else .ok ((σ.s3Objs.find? (fun o => o.key == path)).map (fun o => o.content))

/-- `LocalStorageBackend.load`: never raises (catches `Exception`), a
missing file or internal failure yields `None`. -/
def localLoad (σ : HALState) (path : String) : Option String :=
  if σ.localFail then none
  else (σ.localObjs.find? (fun o => o.key == path)).map (fun o => o.content)

/-- `S3StorageBackend.generate_presigned_url`: raises on a connection-level
failure, else yields a URL (boto signs without probing the key; the URL
string is modelled as a function of the signed path). -/
def s3Presign (σ : HALState) (path : String) : Except Unit (Option String) :=
  if σ.s3Fail then .error ()
  else .ok (some s!"https://s3.presigned/{path}")

/-! ## HybridAccessLayer (hybrid_access_layer.py) -/

/-- `HybridAccessLayer._get_run`: the `Run` row with this id and
`deleted_at IS NULL`, else `ValueError("Run {id} not found")`. -/
def findRun (σ : HALState) (run_id : Nat) : Option Run :=
  σ.runs.find? (fun r => r.id == run_id && !r.deleted)

/-- `_get_run` as the Except-typed entry used by the public operations. -/
def getRun (σ : HALState) (run_id : Nat) : Except String Run :=
  match findRun σ run_id with
  | some r => .ok r
  | none => .error s!"Run {run_id} not found"

/-- `run.storage_address or f"runs/{rid}/"` (Python `or`: `None` and `""`
fall back to the derived default). -/
def effAddrOf (rid : Nat) (sa : Option String) : String :=
  match sa with
  | none => s!"runs/{rid}/"
  | some a => if a = "" then s!"runs/{rid}/" else a

/-- The effective inference prefix of a run. -/
def effectiveAddress (run : Run) : String :=
  effAddrOf run.id run.storage_address

/-- The S3 half of the inference probe: the listing at the effective
address has a non-empty `Contents` (an exception is caught and counts as
no data). -/
def singleHasS3 (σ : HALState) (addr : String) : Bool :=
  !σ.s3Fail && !(directContents σ.s3Objs addr).isEmpty

/-- `HybridAccessLayer._do_infer_storage_mode` (storage_mode null):
S3 first, then relational logs, else UNKNOWN. -/
def do_infer_storage_mode (σ : HALState) (run : Run) : StorageMode :=
  if singleHasS3 σ (effectiveAddress run) then .S3
  else if hasDbLogs σ run.id then .LOCAL
  else .UNKNOWN

/-- `HybridAccessLayer._infer_storage_mode` (the per-instance memo cache is
transparent for a pure probe and is not modelled). -/
def infer_storage_mode (σ : HALState) (run : Run) : StorageMode :=
  if truthyStr run.storage_mode then StorageMode.from_string run.storage_mode
  else do_infer_storage_mode σ run

/-- `_detect_content_type`. -/
def detect_content_type (path : String) : ContentType :=
  if is_operation_log_path path then .OPERATION_LOG
  else if sfxOf "protocol.yaml" path || sfxOf "protocol.yml" path then .PROTOCOL_YAML
  else if sfxOf "manipulate.yaml" path || sfxOf "manipulate.yml" path then .MANIPULATE_YAML
  else if sfxOf ".yaml" path || sfxOf ".yml" path then .OTHER
  else if containsStr path "processes/" then .PROCESS_DATA
  else .OTHER

/-- `key[len(storage_address):] if key.startswith(storage_address) else key`.
With a null `storage_address` Python raises `TypeError` at
`key.startswith(None)`. -/
def relPath (addr : Option String) (key : String) : Except String String :=
  match addr with
  | none => .error "TypeError: startswith arg must not be None"
  | some a => .ok (if pfxOf a key then dropChars key (strLen a) else key)

/-- The file-conversion loop shared by `_list_file_contents`,
`_try_list_from_s3` and `_try_list_from_local`: skip empty or
`'/'`-terminated relative paths, build file items. -/
def mkFileItems (addr : Option String) (cts : List StorageObj)
    (backendName : String) : Except String (List ContentItem) := do
  let withRel ← cts.mapM (fun o => (relPath addr o.key).map (fun r => (o, r)))
  pure (withRel.filterMap (fun x =>
    if x.2 = "" ∨ sfxOf "/" x.2 = true then none
    else some { name := lastSeg x.2, path := x.2, type := "file",
                size := x.1.size, last_modified := x.1.lastModified,
                content_type := detect_content_type x.2, source := .FILE,
                backend := some backendName }))

/-- The directory-conversion loop shared by the same three functions. -/
def mkDirItems (addr : Option String) (cps : List String)
    (backendName : String) : Except String (List ContentItem) := do
  let rels ← cps.mapM (relPath addr)
  pure (rels.filterMap (fun r =>
    if r = "" then none
    else some { name := lastSeg (rstripSlash r), path := r,
                type := "directory", size := 0, last_modified := none,
                content_type := .OTHER, source := .FILE,
                backend := some backendName }))

/-- `HybridAccessLayer._list_file_contents`: the resolved single backend is
listed at `f"{run.storage_address}{prefix}"`; a backend failure in the
listing call is caught and yields `[]` (the conversion loops run outside
that try, so their `TypeError` propagates). The registry falls back to the
S3 backend for an unregistered mode name. -/
def list_file_contents (σ : HALState) (run : Run) (pfx : String) :
    Except String (List ContentItem) :=
  let mode := StorageMode.from_string run.storage_mode
  let backendName := mode.value
  let fullPfx := pyStr run.storage_address ++ pfx
  match mode with
  | .LOCAL =>
    (do
      let res := localListWithDirs σ fullPfx
      pure ((← mkFileItems run.storage_address res.1 backendName) ++
            (← mkDirItems run.storage_address res.2 backendName)))
  | _ =>
    match s3ListWithDirs σ fullPfx with
    | .error _ => .ok []
    | .ok res =>
      (do
        pure ((← mkFileItems run.storage_address res.1 backendName) ++
              (← mkDirItems run.storage_address res.2 backendName)))

/-- `HybridAccessLayer._try_list_from_s3` (whole body inside one try:
every failure, the `TypeError` included, yields `[]`). -/
def try_list_from_s3 (σ : HALState) (run : Run) (pfx : String) :
    List ContentItem :=
  match s3ListWithDirs σ (pyStr run.storage_address ++ pfx) with
  | .error _ => []
  | .ok res =>
    match (do
        pure ((← mkFileItems run.storage_address res.1 "s3") ++
              (← mkDirItems run.storage_address res.2 "s3")) :
        Except String (List ContentItem)) with
    | .ok items => items
    | .error _ => []

/-- `HybridAccessLayer._try_list_from_local`: the relational part and the
local-filesystem part live in two separate try blocks, so each part's
failure is swallowed individually. -/
def try_list_from_local (σ : HALState) (run_id : Nat) (run : Run)
    (pfx : String) : List ContentItem :=
  let dbPart :=
    ((list_virtual_directories σ run_id pfx).map
        (fun i => { i with backend := some "local" })) ++
    ((list_operation_logs σ run_id pfx).map
        (fun i => { i with backend := some "local" }))
  let fsPart :=
    let res := localListWithDirs σ (pyStr run.storage_address ++ pfx)
    match (do
        pure ((← mkFileItems run.storage_address res.1 "local") ++
              (← mkDirItems run.storage_address res.2 "local")) :
        Except String (List ContentItem)) with
    | .ok items => items
    | .error _ => []
  dbPart ++ fsPart

/-- First-seen deduplication by `item.path` (the tail loop of
`list_contents`). -/
def dedupByPath : List ContentItem → List String → List ContentItem
  | [], _ => []
  | i :: rest, seen =>
    if seen.contains i.path then dedupByPath rest seen
    else i :: dedupByPath rest (i.path :: seen)

/-- The pre-dedup item list of `HybridAccessLayer.list_contents`, by
resolved mode. -/
def list_contents_raw (σ : HALState) (run_id : Nat) (run : Run)
    (pfx : String) : Except String (List ContentItem) :=
  match StorageMode.from_string run.storage_mode with
  | .S3 => list_file_contents σ run pfx
  | .LOCAL =>
    match list_file_contents σ run pfx with
    | .error e => .error e
    | .ok files =>
      .ok ((list_virtual_directories σ run_id pfx) ++
           (list_operation_logs σ run_id pfx) ++ files)
  | .UNKNOWN =>
    .ok (try_list_from_s3 σ run pfx ++ try_list_from_local σ run_id run pfx)

/-- `HybridAccessLayer.list_contents`. -/
def list_contents (σ : HALState) (run_id : Nat) (pfx : String) :
    Except String (List ContentItem) :=
  match getRun σ run_id with
  | .error e => .error e
  | .ok run =>
    match list_contents_raw σ run_id run pfx with
    | .error e => .error e
    | .ok raw => .ok (dedupByPath raw [])

/-- The relational attempt of `load_content` for an operation-log path
(`if op_id:` — a zero id is falsy in Python and skips the lookup). -/
def dbLogAttempt (σ : HALState) (path : String) : Option String :=
  if is_operation_log_path path then
    match extract_operation_id path with
    | some opId => if opId ≠ 0 then load_operation_log σ opId else none
    | none => none
  else none

/-- `_try_load_from_s3` composed with the `if content:` truthiness check of
the UNKNOWN branch (exception swallowed, empty bytes falsy). -/
def tryLoadFromS3 (σ : HALState) (run : Run) (path : String) : Option String :=
  match s3Load σ (pyStr run.storage_address ++ path) with
  | .ok c => c
  | .error _ => none

/-- `_try_load_from_local` (exception swallowed). -/
def tryLoadFromLocal (σ : HALState) (run : Run) (path : String) : Option String :=
  localLoad σ (pyStr run.storage_address ++ path)

/-- The UNKNOWN-mode fallback chain of `load_content`: relational log →
S3 → local filesystem, first truthy content wins, else `None`. -/
def load_content_unknown (σ : HALState) (run : Run) (path : String) :
    Option String :=
  let dbc := dbLogAttempt σ path
  if truthyStr dbc then dbc
  else
    let s3c := tryLoadFromS3 σ run path
    if truthyStr s3c then s3c
    else
      let lc := tryLoadFromLocal σ run path
      if truthyStr lc then lc else none

/-- `HybridAccessLayer.load_content`. -/
def load_content (σ : HALState) (run_id : Nat) (path : String) :
    Except String (Option String) :=
  match getRun σ run_id with
  | .error e => .error e
  | .ok run =>
    let mode := StorageMode.from_string run.storage_mode
    if mode = .UNKNOWN then .ok (load_content_unknown σ run path)
    else
      let dbc := if mode = .LOCAL then dbLogAttempt σ path else none
      if truthyStr dbc then .ok dbc
      else
        let fullPath := pyStr run.storage_address ++ path
        match mode with
        | .S3 =>
          match s3Load σ fullPath with
          | .ok c => .ok c
          | .error _ => .ok none
        | _ => .ok (localLoad σ fullPath)

/-- The direct-download fallback route
`f"/api/storage/download-direct?path={run.storage_address}{path}"`. -/
def directDownloadUrl (run : Run) (path : String) : String :=
  s!"/api/storage/download-direct?path={pyStr run.storage_address}{path}"

/-- The relational-content route
`f"/api/v2/storage/db-content/{run_id}?path={path}&op_id={op_id}"`. -/
def dbContentUrl (run_id : Nat) (path : String) (opId : Option Nat) : String :=
  s!"/api/v2/storage/db-content/{run_id}?path={path}&op_id={pyNat opId}"

/-- The UNKNOWN-mode branch of `get_download_url`: relational route for an
operation-log path, else presigned URL attempt (failure swallowed), else
the direct-download route. -/
def download_url_unknown (σ : HALState) (run_id : Nat) (run : Run)
    (path : String) : String :=
  if is_operation_log_path path then
    dbContentUrl run_id path (extract_operation_id path)
  else
    match s3Presign σ (pyStr run.storage_address ++ path) with
    | .ok (some url) => if url ≠ "" then url else directDownloadUrl run path
    | _ => directDownloadUrl run path

/-- `HybridAccessLayer.get_download_url`. -/
def get_download_url (σ : HALState) (run_id : Nat) (path : String) :
    Except String String :=
  match getRun σ run_id with
  | .error e => .error e
  | .ok run =>
    let mode := StorageMode.from_string run.storage_mode
    if mode = .UNKNOWN then .ok (download_url_unknown σ run_id run path)
    else if mode = .LOCAL ∧ is_operation_log_path path then
      .ok (dbContentUrl run_id path (extract_operation_id path))
    else if mode = .S3 then
      match s3Presign σ (pyStr run.storage_address ++ path) with
      | .ok (some url) =>
        .ok (if url ≠ "" then url else directDownloadUrl run path)
      | _ => .ok (directDownloadUrl run path)
    else .ok (directDownloadUrl run path)

/-- `HybridAccessLayer.get_storage_info`. -/
def get_storage_info (σ : HALState) (run_id : Nat) :
    Except String StorageInfo :=
  match getRun σ run_id with
  | .error e => .error e
  | .ok run =>
    let raw_mode := StorageMode.from_string run.storage_mode
    let mode :=
      if raw_mode = .UNKNOWN then infer_storage_mode σ run else raw_mode
    let is_inferred : Bool := raw_mode = .UNKNOWN
    let addr := effAddrOf run_id run.storage_address
    let has_s3_data := singleHasS3 σ addr
    let s3_path :=
      if has_s3_data then some s!"s3://{σ.bucket}/{addr}" else none
    let has_local_data := hasDbLogs σ run_id
    let local_path :=
      if has_local_data then some s!"db://sqlite/runs/{run_id}/" else none
    let is_hybrid := has_s3_data && has_local_data
    if mode = .UNKNOWN then
      -- NB: the UNKNOWN return of the source omits `inferred=is_inferred`,
      -- so the dataclass default False is kept.
      .ok { mode := .UNKNOWN, storage_address := addr,
            full_path := "unknown://",
            data_sources := [("logs", "unknown"), ("yaml", "unknown"),
                             ("data", "unknown")],
            warning := some "Storage mode is not set and could not be inferred. Data may not be displayed correctly.",
            inferred := false, is_hybrid := is_hybrid,
            s3_path := s3_path, local_path := local_path }
    else if mode = .S3 then
      .ok { mode := mode, storage_address := addr,
            full_path := s3_path.getD
              s!"s3://labcode-dev-artifacts/{pyStr run.storage_address}",
            data_sources := [("logs", if has_local_data then "hybrid" else "s3"),
                             ("yaml", "s3"), ("data", "s3")],
            warning := none, inferred := is_inferred, is_hybrid := is_hybrid,
            s3_path := s3_path, local_path := local_path }
    else
      .ok { mode := mode, storage_address := addr,
            full_path := local_path.getD s!"db://sqlite/runs/{run_id}/",
            data_sources := [("logs", if has_s3_data then "hybrid" else "database"),
                             ("yaml", "database_or_none"),
                             ("data", "database_or_none")],
            warning := none, inferred := is_inferred, is_hybrid := is_hybrid,
            s3_path := s3_path, local_path := local_path }

/-! ## Storage-mode resolver (hal/__init__.py) -/

/-- `infer_storage_mode_for_run`: cache hit on a non-null persisted mode;
otherwise hybrid detection via `get_storage_info`, else the probed single
mode; the result (whatever it is) is written back to the run record when
`persist` is set. Returns the mode string and the (possibly updated) run
row. -/
def infer_storage_mode_for_run (σ : HALState) (run : Run)
    (persist : Bool := true) : Except String (String × Run) :=
  match run.storage_mode with
  | some m => .ok (m, run)
  | none =>
    match get_storage_info σ run.id with
    | .error e => .error e
    | .ok info =>
      let inferred :=
        if info.is_hybrid then "hybrid"
        else (infer_storage_mode σ run).value
      let run' :=
        if persist then { run with storage_mode := some inferred } else run
      .ok (inferred, run')

/-- `_batch_check_s3_presence`: one listing of `"runs/"`, run ids parsed
from the `CommonPrefixes` (`"runs/21/" → 21`) and intersected with the
requested id set; any failure yields the empty set. -/
def batch_check_s3_presence (σ : HALState) (run_ids : List Nat) : List Nat :=
  if σ.s3Fail then []
  else
    (commonDirs σ.s3Objs "runs/").filterMap (fun pre =>
      let parts := strSplitOn (stripSlash pre) "/"
      if parts.length ≥ 2 then
        match (parts.get? 1).bind strToNat? with
        | some rid => if run_ids.contains rid then some rid else none
        | none => none
      else none)

/-- `_batch_check_db_logs`: the distinct run ids of the one
`Process JOIN Operation` query, represented per requested run id. -/
def batch_check_db_logs (σ : HALState) (run_ids : List Nat) : List Nat :=
  run_ids.filter (fun rid => hasDbLogs σ rid)

/-- The four-way assignment of `batch_infer_storage_modes`. -/
def classifyMode (hasS3 hasDb : Bool) : String :=
  if hasS3 && hasDb then "hybrid"
  else if hasS3 then "s3"
  else if hasDb then "local"
  else "unknown"

/-- `batch_infer_storage_modes`: skip cached runs; one S3 listing and one
relational query for the uncached ids; assign and persist each uncached
run's mode. Returns the run rows after the in-place updates. -/
def batch_infer_storage_modes (σ : HALState) (runs : List Run) : List Run :=
  let uncached := runs.filter (fun r => r.storage_mode.isNone)
  if uncached = [] then runs
  else
    let ids := uncached.map (fun r => r.id)
    let s3ids := batch_check_s3_presence σ ids
    let dbids := batch_check_db_logs σ ids
    runs.map (fun r =>
      if r.storage_mode.isNone then
        let m := classifyMode (s3ids.contains r.id) (dbids.contains r.id)
        { r with storage_mode := some m }
      else r)

/-- The run row as single-run inference leaves it (used to compare batch
and single inference). -/
def singlePersist (σ : HALState) (r : Run) : Run :=
  match infer_storage_mode_for_run σ r true with
  | .ok x => x.2
  | .error _ => r

/-! ## Properties of the first-seen deduplication -/

instance instDecEqExcept {ε α : Type} [DecidableEq ε] [DecidableEq α] :
    DecidableEq (Except ε α) := fun a b =>
  match a, b with
  | .ok x, .ok y =>
    if h : x = y then .isTrue (by rw [h])
    else .isFalse (fun hc => h (by cases hc; rfl))
  | .error e, .error f =>
    if h : e = f then .isTrue (by rw [h])
    else .isFalse (fun hc => h (by cases hc; rfl))
  | .ok _, .error _ => .isFalse (fun hc => by cases hc)
  | .error _, .ok _ => .isFalse (fun hc => by cases hc)

theorem dedupByPath_mem {l : List ContentItem} {seen : List String}
    {x : ContentItem} (h : x ∈ dedupByPath l seen) :
    x ∈ l ∧ seen.contains x.path = false := by
  induction l generalizing seen with
  | nil => simp [dedupByPath] at h
  | cons i rest ih =>
    by_cases hs : seen.contains i.path = true
    · rw [dedupByPath, if_pos hs] at h
      obtain ⟨h1, h2⟩ := ih h
      exact ⟨List.mem_cons_of_mem _ h1, h2⟩
    · rw [dedupByPath, if_neg hs] at h
      rcases List.mem_cons.mp h with heq | h'
      · subst heq
        exact ⟨List.mem_cons_self _ _, by simpa using hs⟩
      · obtain ⟨h1, h2⟩ := ih h'
        simp only [List.contains_cons, Bool.or_eq_false_iff] at h2
        exact ⟨List.mem_cons_of_mem _ h1, h2.2⟩

theorem dedupByPath_paths_nodup (l : List ContentItem) (seen : List String) :
    ((dedupByPath l seen).map (fun i => i.path)).Nodup := by
  induction l generalizing seen with
  | nil => simp [dedupByPath]
  | cons i rest ih =>
    by_cases hs : seen.contains i.path = true
    · rw [dedupByPath, if_pos hs]; exact ih seen
    · rw [dedupByPath, if_neg hs]
      refine List.nodup_cons.mpr ⟨?_, ih _⟩
      intro hmem
      obtain ⟨x, hx, hxp⟩ := List.mem_map.mp hmem
      have h2 := (dedupByPath_mem hx).2
      simp only [List.contains_cons, Bool.or_eq_false_iff] at h2
      have := h2.1
      rw [hxp] at this
      simp at this

theorem dedupByPath_find {l : List ContentItem} {seen : List String}
    {x : ContentItem} (h : x ∈ dedupByPath l seen) :
    l.find? (fun y => y.path == x.path) = some x := by
  induction l generalizing seen with
  | nil => simp [dedupByPath] at h
  | cons i rest ih =>
    by_cases hs : seen.contains i.path = true
    · rw [dedupByPath, if_pos hs] at h
      have h2 := (dedupByPath_mem h).2
      have hne : (i.path == x.path) = false := by
        rcases Bool.eq_false_or_eq_true (i.path == x.path) with hb | hb
        · have hip : i.path = x.path := by simpa using hb
          rw [hip] at hs
          rw [h2] at hs
          exact absurd hs Bool.false_ne_true
        · exact hb
      simp only [List.find?_cons, hne]
      exact ih h
    · rw [dedupByPath, if_neg hs] at h
      rcases List.mem_cons.mp h with heq | h'
      · subst heq
        have hpos : (x.path == x.path) = true := by simp
        simp only [List.find?_cons, hpos]
      · have h2 := (dedupByPath_mem h').2
        simp only [List.contains_cons, Bool.or_eq_false_iff] at h2
        have hne : (i.path == x.path) = false := by
          rcases Bool.eq_false_or_eq_true (i.path == x.path) with hb | hb
          · have hip : i.path = x.path := by simpa using hb
            have h21 := h2.1
            rw [hip] at h21
            simp at h21
          · exact hb
        simp only [List.find?_cons, hne]
        exact ih h'

theorem dedupByPath_covers {l : List ContentItem} {seen : List String}
    {y : ContentItem} (h : y ∈ l) :
    seen.contains y.path = true ∨
      ∃ x ∈ dedupByPath l seen, x.path = y.path := by
  induction l generalizing seen with
  | nil => simp at h
  | cons i rest ih =>
    by_cases hs : seen.contains i.path = true
    · rw [dedupByPath, if_pos hs]
      rcases List.mem_cons.mp h with rfl | h'
      · exact Or.inl hs
      · exact ih h'
    · rw [dedupByPath, if_neg hs]
      rcases List.mem_cons.mp h with heq | h'
      · exact Or.inr ⟨i, List.mem_cons_self _ _, by rw [heq]⟩
      · rcases @ih (i.path :: seen) h' with hcon | ⟨x, hx, hxp⟩
        · simp only [List.contains_cons, Bool.or_eq_true] at hcon
          rcases hcon with hcon | hcon
          · exact Or.inr ⟨i, List.mem_cons_self _ _,
              ((by simpa using hcon : y.path = i.path)).symm⟩
          · exact Or.inl hcon
        · exact Or.inr ⟨x, List.mem_cons_of_mem _ hx, hxp⟩

/-- C5: every `list_contents` result is the first-seen deduplication of the
merged source items: the item paths are pairwise distinct, every kept item
is the first item of the merged list bearing its path, and every merged
item's path is represented. -/
theorem C5_dedup_invariant (σ : HALState) (rid : Nat) (pfx : String)
    (run : Run) (raw : List ContentItem)
    (h1 : findRun σ rid = some run)
    (h2 : list_contents_raw σ rid run pfx = .ok raw) :
    list_contents σ rid pfx = .ok (dedupByPath raw []) ∧
    ((dedupByPath raw []).map (fun i => i.path)).Nodup ∧
    (∀ x ∈ dedupByPath raw [],
       raw.find? (fun y => y.path == x.path) = some x) ∧
    (∀ y ∈ raw, ∃ x ∈ dedupByPath raw [], x.path = y.path) := by
  refine ⟨?_, dedupByPath_paths_nodup raw [],
    fun x hx => dedupByPath_find hx, fun y hy => ?_⟩
  · simp [list_contents, getRun, h1, h2]
  · rcases @dedupByPath_covers raw [] y hy with hcon | hgood
    · simp at hcon
    · exact hgood

/-- The concrete state of the C5 witness: a LOCAL-mode run whose relational
log and local file produce the same virtual path. -/
def c5_run : Run := ⟨22, some "runs/22/", some "local", false⟩

def c5_state : HALState :=
  ⟨[], false, [⟨"runs/22/operations/172/log.txt", 3, none, "abc"⟩], false,
   "bkt", [c5_run], [⟨2, 22⟩], [⟨172, 2, some "abc", some "2024-01-01T00:00:00"⟩]⟩

def c5_raw : List ContentItem :=
  [{ name := "log.txt", path := "operations/172/log.txt", type := "file",
     size := 3, last_modified := some "2024-01-01T00:00:00",
     content_type := .OPERATION_LOG, source := .DATABASE, backend := none },
   { name := "log.txt", path := "operations/172/log.txt", type := "file",
     size := 3, last_modified := none,
     content_type := .OPERATION_LOG, source := .FILE, backend := some "local" }]

theorem C5_witness :
    list_contents c5_state 22 "operations/172/" = .ok (dedupByPath c5_raw []) :=
  (C5_dedup_invariant c5_state 22 "operations/172/" c5_run c5_raw
    (by decide) (by decide)).1

/-! ## General helper lemmas -/

theorem filter_ne_nil_iff {α : Type} (p : α → Bool) (l : List α) :
    l.filter p ≠ [] ↔ ∃ x ∈ l, p x = true := by
  constructor
  · intro h
    match hl : l.filter p with
    | [] => exact absurd hl h
    | x :: xs =>
      have hx : x ∈ l.filter p := by rw [hl]; exact List.mem_cons_self _ _
      have hm := List.mem_filter.mp hx
      exact ⟨x, hm.1, hm.2⟩
  · rintro ⟨x, hx, hp⟩ hnil
    have hm : x ∈ l.filter p := List.mem_filter.mpr ⟨hx, hp⟩
    rw [hnil] at hm
    simp at hm

theorem map_eq_self_of_mem {α : Type} {l : List α} {f : α → α}
    (h : ∀ a ∈ l, f a = a) : l.map f = l := by
  induction l with
  | nil => rfl
  | cons a t ih =>
    rw [List.map_cons, h a (List.mem_cons_self _ _),
      ih (fun b hb => h b (List.mem_cons_of_mem _ hb))]

theorem map_congr_of_mem {α β : Type} {l : List α} {f g : α → β}
    (h : ∀ a ∈ l, f a = g a) : l.map f = l.map g := by
  induction l with
  | nil => rfl
  | cons a t ih =>
    rw [List.map_cons, List.map_cons, h a (List.mem_cons_self _ _),
      ih (fun b hb => h b (List.mem_cons_of_mem _ hb))]

theorem contains_filter_of_mem {l : List Nat} {p : Nat → Bool} {x : Nat}
    (hx : x ∈ l) : (l.filter p).contains x = p x := by
  cases hpx : p x with
  | false =>
    cases hb : (l.filter p).contains x with
    | false => rfl
    | true =>
      have hmem : x ∈ l.filter p := List.mem_of_elem_eq_true hb
      have := (List.mem_filter.mp hmem).2
      rw [hpx] at this
      exact absurd this Bool.false_ne_true
  | true =>
    have hmem : x ∈ l.filter p := List.mem_filter.mpr ⟨hx, hpx⟩
    exact List.elem_eq_true_of_mem hmem

/-! ## C1: single-run inference -/

/-- The run and store of the C1/C2 counterexamples: one object that lives
only in a deeper subdirectory of the run's prefix. -/
def deepRun : Run := ⟨5, none, none, false⟩

def deepState : HALState :=
  ⟨[⟨"runs/5/sub/a.txt", 3, none, "abc"⟩], false, [], false, "bkt",
   [deepRun], [], []⟩

/-- C1 counterexample: an object exists under the run's derived prefix
`runs/5/`, yet single-run inference does not return OBJECT_STORE (the probe
lists with delimiter `'/'` and only immediate-child objects count). -/
theorem C1_counterexample :
    do_infer_storage_mode deepState deepRun = StorageMode.UNKNOWN ∧
    (deepState.s3Objs.any (fun o => pfxOf (effectiveAddress deepRun) o.key))
      = true := by decide

/-- C1 (amended): single-run inference probes the object store first at the
run's storage_address (or the derived default `runs/{id}/`) and returns S3
exactly when the probe did not fail and at least one object is an
*immediate child* of that prefix (no further `'/'` in its key remainder);
otherwise LOCAL exactly when the run has relational log content; otherwise
UNKNOWN. -/
theorem C1_single_inference (σ : HALState) (run : Run) :
    (do_infer_storage_mode σ run = .S3 ↔
      (σ.s3Fail = false ∧ ∃ o ∈ σ.s3Objs,
        pfxOf (effectiveAddress run) o.key = true ∧
        hasChar (dropChars o.key (strLen (effectiveAddress run))) '/' = false)) ∧
    (do_infer_storage_mode σ run = .LOCAL ↔
      (do_infer_storage_mode σ run ≠ .S3 ∧ hasDbLogs σ run.id = true)) ∧
    (do_infer_storage_mode σ run = .UNKNOWN ↔
      (do_infer_storage_mode σ run ≠ .S3 ∧ hasDbLogs σ run.id = false)) := by
  have hkey : singleHasS3 σ (effectiveAddress run) = true ↔
      (σ.s3Fail = false ∧ ∃ o ∈ σ.s3Objs,
        pfxOf (effectiveAddress run) o.key = true ∧
        hasChar (dropChars o.key (strLen (effectiveAddress run))) '/' = false) := by
    rw [singleHasS3]
    simp only [Bool.and_eq_true, Bool.not_eq_true']
    constructor
    · rintro ⟨h1, h2⟩
      refine ⟨h1, ?_⟩
      have hne : directContents σ.s3Objs (effectiveAddress run) ≠ [] := by
        intro hc
        rw [hc] at h2
        simp at h2
      obtain ⟨o, ho, hp⟩ := (filter_ne_nil_iff _ _).mp hne
      simp only [Bool.and_eq_true, Bool.not_eq_true'] at hp
      exact ⟨o, ho, hp.1, hp.2⟩
    · rintro ⟨h1, o, ho, hp1, hp2⟩
      refine ⟨h1, ?_⟩
      have hmem : o ∈ directContents σ.s3Objs (effectiveAddress run) :=
        List.mem_filter.mpr ⟨ho, by simp only [Bool.and_eq_true, Bool.not_eq_true']
                                    exact ⟨hp1, hp2⟩⟩
      cases hdc : directContents σ.s3Objs (effectiveAddress run) with
      | nil =>
        rw [hdc] at hmem
        simp at hmem
      | cons d ds => rfl
  cases hB : singleHasS3 σ (effectiveAddress run) with
  | true =>
    have hRHS := hkey.mp hB
    cases hD : hasDbLogs σ run.id with
    | true => simp [do_infer_storage_mode, hB, hD, hRHS]
    | false => simp [do_infer_storage_mode, hB, hD, hRHS]
  | false =>
    have hRHS : ¬(σ.s3Fail = false ∧ ∃ o ∈ σ.s3Objs,
        pfxOf (effectiveAddress run) o.key = true ∧
        hasChar (dropChars o.key (strLen (effectiveAddress run))) '/' = false) := by
      intro hc
      rw [← hkey] at hc
      rw [hB] at hc
      exact absurd hc Bool.false_ne_true
    cases hD : hasDbLogs σ run.id with
    | true => simp [do_infer_storage_mode, hB, hD, hRHS]
    | false => simp [do_infer_storage_mode, hB, hD, hRHS]

def c1w_run : Run := ⟨6, none, none, false⟩

def c1w_state : HALState :=
  ⟨[⟨"runs/6/a.txt", 1, none, "x"⟩], false, [], false, "bkt", [c1w_run], [], []⟩

theorem C1_witness : do_infer_storage_mode c1w_state c1w_run = StorageMode.S3 :=
  (C1_single_inference c1w_state c1w_run).1.mpr (by decide)

/-! ## C3/C4: persistence of inferred modes -/

theorem get_storage_info_hybrid_flag (σ : HALState) (rid : Nat) (run : Run)
    (h : findRun σ rid = some run) :
    ∃ info, get_storage_info σ rid = .ok info ∧
      info.is_hybrid =
        (singleHasS3 σ (effAddrOf rid run.storage_address) && hasDbLogs σ rid) := by
  have hg : getRun σ rid = .ok run := by rw [getRun, h]
  cases hres : get_storage_info σ rid with
  | error e =>
    exfalso
    simp only [get_storage_info, hg] at hres
    iterate 4 all_goals try split at hres
    all_goals exact Except.noConfusion hres
  | ok info =>
    refine ⟨info, rfl, ?_⟩
    simp only [get_storage_info, hg] at hres
    iterate 4 all_goals try split at hres
    all_goals
      rw [Except.ok.injEq] at hres
      subst hres
      rfl

def c3_run : Run := ⟨7, none, none, false⟩

def c3_state : HALState := ⟨[], false, [], false, "bkt", [c3_run], [], []⟩

def c3_run2 : Run := { c3_run with storage_mode := some "unknown" }

/-- The world after the first inference, with an S3 object now present
under `runs/7/`. -/
def c3_state2 : HALState :=
  ⟨[⟨"runs/7/a.txt", 1, none, "x"⟩], false, [], false, "bkt", [c3_run2], [], []⟩

/-- C3 counterexample: inference on a data-less run yields UNKNOWN and the
run record *is* updated (persisted value `"unknown"`, not left null), and a
subsequent call does *not* probe again: it returns the cached `"unknown"`
even though the object store now holds data under the run's prefix. -/
theorem C3_counterexample :
    c3_run.storage_mode = none ∧
    infer_storage_mode_for_run c3_state c3_run true = .ok ("unknown", c3_run2) ∧
    c3_run2.storage_mode = some "unknown" ∧
    c3_state2.s3Objs ≠ [] ∧
    infer_storage_mode_for_run c3_state2 c3_run2 true = .ok ("unknown", c3_run2)
    := by decide

/-- C3 (amended): whatever mode single-run inference computes — UNKNOWN
included — is persisted to the run record when `persist` is set; and any
run with a non-null persisted mode is a pure cache hit: the same value is
returned, the record is unchanged, and no probe happens (the result is
independent of the external state). -/
theorem C3_persistence :
    (∀ σ run, findRun σ run.id = some run → run.storage_mode = none →
      ∃ m, infer_storage_mode_for_run σ run true =
        .ok (m, { run with storage_mode := some m })) ∧
    (∀ σ σ2 run m, run.storage_mode = some m →
      infer_storage_mode_for_run σ run true = .ok (m, run) ∧
      infer_storage_mode_for_run σ2 run true = .ok (m, run)) := by
  constructor
  · intro σ run hf hm
    obtain ⟨info, hok, _⟩ := get_storage_info_hybrid_flag σ run.id run hf
    refine ⟨if info.is_hybrid then "hybrid"
            else (infer_storage_mode σ run).value, ?_⟩
    simp [infer_storage_mode_for_run, hm, hok]
  · intro σ σ2 run m hm
    constructor <;> simp [infer_storage_mode_for_run, hm]

def c3w_run : Run := ⟨9, none, some "s3", false⟩

def c3w_state : HALState := ⟨[], true, [], false, "bkt", [c3w_run], [], []⟩

theorem C3_witness :
    infer_storage_mode_for_run c3w_state c3w_run true = .ok ("s3", c3w_run) :=
  (C3_persistence.2 c3w_state c3w_state c3w_run "s3" rfl).1

def c4_run : Run := ⟨8, none, none, false⟩

def c4_state : HALState :=
  ⟨[⟨"runs/8/log.bin", 1, none, "z"⟩], false, [], false, "bkt",
   [c4_run], [⟨1, 8⟩], [⟨1, 1, some "x", none⟩]⟩

/-- C4 counterexample: a run with data in both the object store and the
relational store gets the distinct value `"hybrid"` persisted, by both the
single-run and the batch resolver. -/
theorem C4_counterexample :
    infer_storage_mode_for_run c4_state c4_run true =
      .ok ("hybrid", { c4_run with storage_mode := some "hybrid" }) ∧
    (batch_infer_storage_modes c4_state [c4_run]).map (fun r => r.storage_mode)
      = [some "hybrid"] := by decide

theorem classifyMode_mem (a b : Bool) :
    classifyMode a b = "s3" ∨ classifyMode a b = "local" ∨
    classifyMode a b = "hybrid" ∨ classifyMode a b = "unknown" := by
  cases a <;> cases b <;> simp [classifyMode]

/-- C4 (amended): the resolver persists exactly one of the four strings
`"s3"`, `"local"`, `"hybrid"`, `"unknown"` to an uncached run — `"hybrid"`
*is* a persisted distinct value — and the batch resolver leaves cached runs
untouched and writes only those four values. -/
theorem C4_persisted_values :
    (∀ σ run m run2, findRun σ run.id = some run → run.storage_mode = none →
      infer_storage_mode_for_run σ run true = .ok (m, run2) →
      run2.storage_mode = some m ∧
      (m = "s3" ∨ m = "local" ∨ m = "hybrid" ∨ m = "unknown")) ∧
    (∀ σ runs r2, r2 ∈ batch_infer_storage_modes σ runs →
      (∃ r ∈ runs, r2 = r ∧ r.storage_mode ≠ none) ∨
      (∃ m, r2.storage_mode = some m ∧
        (m = "s3" ∨ m = "local" ∨ m = "hybrid" ∨ m = "unknown"))) := by
  constructor
  · intro σ run m run2 hf hm hinfer
    obtain ⟨info, hok, _⟩ := get_storage_info_hybrid_flag σ run.id run hf
    simp only [infer_storage_mode_for_run, hm, hok] at hinfer
    rw [Except.ok.injEq, Prod.mk.injEq] at hinfer
    obtain ⟨hm2, hr2⟩ := hinfer
    subst hm2
    constructor
    · rw [← hr2]
      simp
    · by_cases hhyb : info.is_hybrid = true
      · simp [hhyb]
      · cases hmode : infer_storage_mode σ run <;>
          simp [hhyb, hmode, StorageMode.value]
  · intro σ runs r2 h2
    simp only [batch_infer_storage_modes] at h2
    by_cases hnil : runs.filter (fun r => r.storage_mode.isNone) = []
    · rw [if_pos hnil] at h2
      refine Or.inl ⟨r2, h2, rfl, ?_⟩
      intro hc
      have hmem : r2 ∈ runs.filter (fun r => r.storage_mode.isNone) :=
        List.mem_filter.mpr ⟨h2, by rw [hc]; rfl⟩
      rw [hnil] at hmem
      simp at hmem
    · rw [if_neg hnil] at h2
      obtain ⟨r, hr, heq⟩ := List.mem_map.mp h2
      by_cases hrn : r.storage_mode.isNone = true
      · rw [if_pos hrn] at heq
        subst heq
        exact Or.inr ⟨_, rfl, classifyMode_mem _ _⟩
      · rw [if_neg hrn] at heq
        refine Or.inl ⟨r, hr, heq.symm, ?_⟩
        intro hc
        rw [hc] at hrn
        exact hrn rfl

def c4w_run : Run := ⟨4, none, none, false⟩

def c4w_state : HALState :=
  ⟨[], false, [], false, "bkt", [c4w_run], [⟨2, 4⟩], [⟨1, 2, some "log", none⟩]⟩

theorem C4_witness :
    ({ c4w_run with storage_mode := some "local" } : Run).storage_mode
      = some "local" ∧
    ("local" = "s3" ∨ "local" = "local" ∨ "local" = "hybrid" ∨
      "local" = "unknown") :=
  C4_persisted_values.1 c4w_state c4w_run "local"
    { c4w_run with storage_mode := some "local" } (by decide) rfl (by decide)

/-! ## C7/C8/C9/C10: listing/loading error policy -/

/-- C7: on an UNKNOWN-mode run, `list_contents` queries both the object
store and the relational/local sources, never propagates a source failure,
and an object-store failure contributes no items: the result is exactly
the deduplicated items of the surviving sources. -/
theorem C7_unknown_mode_swallows_failures (σ : HALState) (rid : Nat)
    (run : Run) (pfx : String)
    (hf : findRun σ rid = some run)
    (hm : StorageMode.from_string run.storage_mode = .UNKNOWN) :
    list_contents σ rid pfx =
      .ok (dedupByPath (try_list_from_s3 σ run pfx ++
           try_list_from_local σ rid run pfx) []) ∧
    (σ.s3Fail = true → try_list_from_s3 σ run pfx = []) ∧
    (σ.s3Fail = true →
      list_contents σ rid pfx =
        .ok (dedupByPath (try_list_from_local σ rid run pfx) [])) := by
  have hg : getRun σ rid = .ok run := by rw [getRun, hf]
  refine ⟨?_, fun hfail => ?_, fun hfail => ?_⟩
  · simp [list_contents, hg, list_contents_raw, hm]
  · simp [try_list_from_s3, s3ListWithDirs, hfail]
  · have hs3 : try_list_from_s3 σ run pfx = [] := by
      simp [try_list_from_s3, s3ListWithDirs, hfail]
    simp [list_contents, hg, list_contents_raw, hm, hs3]

def c7_run : Run := ⟨7, none, none, false⟩

/-- Example 4 of the spec: the object store errors, the relational adapter
holds one content-bearing operation. -/
def c7_state : HALState :=
  ⟨[], true, [], false, "bkt", [c7_run], [⟨1, 7⟩], [⟨3, 1, some "x", none⟩]⟩

theorem C7_witness :
    list_contents c7_state 7 "operations/" =
      .ok (dedupByPath (try_list_from_local c7_state 7 c7_run "operations/") []) :=
  (C7_unknown_mode_swallows_failures c7_state 7 c7_run "operations/"
    (by decide) (by decide)).2.2 rfl

def c8_run : Run := ⟨5, some "runs/5/", some "s3", false⟩

def c8_state : HALState := ⟨[], true, [], false, "bkt", [c8_run], [], []⟩

/-- C8 counterexample: on a run already resolved to S3, a raising backend
failure is *not* propagated: `list_contents` returns an empty list and
`load_content` returns null. -/
theorem C8_counterexample :
    c8_state.s3Fail = true ∧
    list_contents c8_state 5 "" = .ok [] ∧
    load_content c8_state 5 "a.txt" = .ok none := by decide

/-- C8 (amended): a backend failure during a definitive single-source
(S3-mode) `list_contents` or `load_content` query is caught and converted
into an empty list resp. a null content result; no failure reaches the
caller and no retry happens. -/
theorem C8_definitive_failure_swallowed (σ : HALState) (rid : Nat)
    (run : Run) (pfx path : String)
    (hf : findRun σ rid = some run)
    (hm : StorageMode.from_string run.storage_mode = .S3)
    (hfail : σ.s3Fail = true) :
    list_contents σ rid pfx = .ok [] ∧ load_content σ rid path = .ok none := by
  have hg : getRun σ rid = .ok run := by rw [getRun, hf]
  constructor
  · have hlf : list_file_contents σ run pfx = .ok [] := by
      simp [list_file_contents, hm, s3ListWithDirs, hfail]
    simp [list_contents, hg, list_contents_raw, hm, hlf, dedupByPath]
  · simp [load_content, hg, hm, s3Load, hfail, dbLogAttempt, truthyStr]

theorem C8_witness :
    list_contents c8_state 5 "logs/" = .ok [] ∧
    load_content c8_state 5 "x" = .ok none :=
  C8_definitive_failure_swallowed c8_state 5 c8_run "logs/" "x"
    (by decide) (by decide) rfl

def c9_state : HALState := ⟨[], false, [], false, "bkt", [], [], []⟩

/-- C9 counterexample: an unknown run id makes `load_content` raise
(`ValueError("Run 99 not found")` in the source) instead of returning an
explicit null result. -/
theorem C9_counterexample :
    findRun c9_state 99 = none ∧
    load_content c9_state 99 "operations/1/log.txt" =
      .error "Run 99 not found" := by decide

/-- C9 (amended): absent content at a virtual path is surfaced by
`load_content` as an explicit null result, but an unknown run id raises a
"Run not found" error that propagates to the caller. -/
theorem C9_notfound_behaviour :
    (∀ σ rid path, findRun σ rid = none →
      load_content σ rid path = .error s!"Run {rid} not found") ∧
    (∀ σ rid run path, findRun σ rid = some run →
      StorageMode.from_string run.storage_mode = .S3 → σ.s3Fail = false →
      σ.s3Objs.find? (fun o => o.key == pyStr run.storage_address ++ path)
        = none →
      load_content σ rid path = .ok none) := by
  constructor
  · intro σ rid path hf
    simp [load_content, getRun, hf]
  · intro σ rid run path hf hm hfail hmiss
    have hg : getRun σ rid = .ok run := by rw [getRun, hf]
    simp [load_content, hg, hm, s3Load, hfail, hmiss, dbLogAttempt, truthyStr]

def c9w_run : Run := ⟨5, some "runs/5/", some "s3", false⟩

def c9w_state : HALState := ⟨[], false, [], false, "bkt", [c9w_run], [], []⟩

theorem C9_witness :
    load_content c9w_state 12 "p" = .error "Run 12 not found" ∧
    load_content c9w_state 5 "missing.txt" = .ok none :=
  ⟨C9_notfound_behaviour.1 c9w_state 12 "p" (by decide),
   C9_notfound_behaviour.2 c9w_state 5 c9w_run "missing.txt"
     (by decide) (by decide) rfl (by decide)⟩

/-- C10: `StorageMode.from_string` maps null and every string whose
lower-casing is neither `"s3"` nor `"local"` — the persisted `"hybrid"`
included — to UNKNOWN, and a run carrying such a mode string is served by
the UNKNOWN-mode multi-source fallback branches of `list_contents`,
`load_content` and `get_download_url`. -/
theorem C10_unrecognized_mode_fallback :
    (StorageMode.from_string none = .UNKNOWN) ∧
    (∀ s, lowerStr s ≠ "s3" → lowerStr s ≠ "local" →
      StorageMode.from_string (some s) = .UNKNOWN) ∧
    (StorageMode.from_string (some "hybrid") = .UNKNOWN) ∧
    (∀ σ rid run pfx path, findRun σ rid = some run →
      StorageMode.from_string run.storage_mode = .UNKNOWN →
      list_contents σ rid pfx =
        .ok (dedupByPath (try_list_from_s3 σ run pfx ++
             try_list_from_local σ rid run pfx) []) ∧
      load_content σ rid path = .ok (load_content_unknown σ run path) ∧
      get_download_url σ rid path = .ok (download_url_unknown σ rid run path))
    := by
  refine ⟨rfl, ?_, by decide, ?_⟩
  · intro s h1 h2
    simp [StorageMode.from_string, h1, h2]
  · intro σ rid run pfx path hf hm
    have hg : getRun σ rid = .ok run := by rw [getRun, hf]
    refine ⟨?_, ?_, ?_⟩
    · simp [list_contents, hg, list_contents_raw, hm]
    · simp [load_content, hg, hm]
    · simp [get_download_url, hg, hm]

def c10_run : Run := ⟨3, some "runs/3/", some "hybrid", false⟩

def c10_state : HALState :=
  ⟨[⟨"runs/3/x.bin", 2, none, "q"⟩], false, [], false, "bkt",
   [c10_run], [], []⟩

theorem C10_witness :
    StorageMode.from_string (some "weird") = .UNKNOWN ∧
    load_content c10_state 3 "x.bin" =
      .ok (load_content_unknown c10_state c10_run "x.bin") :=
  ⟨C10_unrecognized_mode_fallback.2.1 "weird" (by decide) (by decide),
   ((C10_unrecognized_mode_fallback.2.2.2 c10_state 3 c10_run "" "x.bin"
     (by decide) (by decide)).2.1)⟩

/-! ## C6: relational adapter hierarchy -/

theorem opIdsWithLog_ne_nil_iff (σ : HALState) (rid : Nat) :
    opIdsWithLog σ rid ≠ [] ↔
      ∃ op ∈ σ.operations, logTruthy op.log = true ∧
        ∃ p ∈ σ.processes, p.id = op.process_id ∧ p.run_id = rid := by
  rw [opIdsWithLog]
  constructor
  · intro h
    have hfil : σ.operations.filter (fun op =>
        (σ.processes.any (fun p => p.id == op.process_id && p.run_id == rid))
          && logTruthy op.log) ≠ [] := by
      intro hc
      rw [hc] at h
      exact h rfl
    obtain ⟨op, hop, hpred⟩ := (filter_ne_nil_iff _ _).mp hfil
    rw [Bool.and_eq_true] at hpred
    obtain ⟨hany, hlog⟩ := hpred
    obtain ⟨p, hp, hpp⟩ := List.any_eq_true.mp hany
    rw [Bool.and_eq_true] at hpp
    exact ⟨op, hop, hlog, p, hp, by simpa using hpp.1, by simpa using hpp.2⟩
  · rintro ⟨op, hop, hlog, p, hp, h1, h2⟩ hnil
    have hmem : op ∈ σ.operations.filter (fun op =>
        (σ.processes.any (fun p => p.id == op.process_id && p.run_id == rid))
          && logTruthy op.log) := by
      refine List.mem_filter.mpr ⟨hop, ?_⟩
      rw [Bool.and_eq_true]
      refine ⟨List.any_eq_true.mpr ⟨p, hp, ?_⟩, hlog⟩
      rw [Bool.and_eq_true]
      exact ⟨by simpa using h1, by simpa using h2⟩
    rw [List.map_eq_nil_iff] at hnil
    rw [hnil] at hmem
    simp at hmem

/-- The single virtual file entry of a content-bearing operation. -/
def opLogItem (op : Operation) : ContentItem :=
  { name := "log.txt", path := s!"operations/{op.id}/log.txt",
    type := "file", size := (op.log.getD "").utf8ByteSize,
    last_modified := op.finished_at, content_type := .OPERATION_LOG,
    source := .DATABASE, backend := none }

def c6_state : HALState :=
  ⟨[], false, [], false, "bkt", [], [⟨1, 1⟩], [⟨5, 1, some "hello", none⟩]⟩

/-- C6 counterexample: the leaf query also returns the `log.txt` entry at
the slashless prefix `operations/5` (the source pattern is
`^operations/(\d+)/?$`), so "only at the exact prefix `operations/{opId}/`"
does not hold as stated. -/
theorem C6_counterexample :
    list_operation_logs c6_state 1 "operations/5" ≠ [] ∧
    sfxOf "/" "operations/5" = false := by decide

/-- C6 (amended): the relational adapter's root listing has at most one
entry, present exactly when some operation of the run has truthy log
content; the `operations/` listing has one subdirectory per content-bearing
operation; the leaf query is empty at the shallow prefixes and returns a
row's `log.txt` entry exactly for a prefix matching
`^operations/(\d+)/?$` — i.e. `operations/{opId}` with or without the
trailing slash — whose operation exists, has truthy log content and belongs
to the queried run. -/
theorem C6_relational_hierarchy :
    (∀ σ rid, (list_virtual_directories σ rid "").length ≤ 1) ∧
    (∀ σ rid, (list_virtual_directories σ rid "" ≠ [] ↔
      ∃ op ∈ σ.operations, logTruthy op.log = true ∧
        ∃ p ∈ σ.processes, p.id = op.process_id ∧ p.run_id = rid)) ∧
    (∀ σ rid, list_virtual_directories σ rid "operations/" =
      (opIdsWithLog σ rid).map (fun i =>
        { name := toString i, path := s!"operations/{i}/",
          type := "directory", size := 0, last_modified := none,
          content_type := .OTHER, source := .VIRTUAL, backend := none })) ∧
    (∀ σ rid, list_operation_logs σ rid "" = [] ∧
      list_operation_logs σ rid "operations/" = [] ∧
      list_operation_logs σ rid "operations" = []) ∧
    (∀ σ rid pfx, list_operation_logs σ rid pfx ≠ [] →
      ∃ opId op, matchOpDir pfx = some opId ∧
        σ.operations.find? (fun o => o.id == opId) = some op ∧
        logTruthy op.log = true ∧
        (σ.processes.find? (fun p =>
          p.id == op.process_id && p.run_id == rid)).isSome = true ∧
        list_operation_logs σ rid pfx = [opLogItem op]) ∧
    (∀ σ rid pfx opId op pr, matchOpDir pfx = some opId →
      σ.operations.find? (fun o => o.id == opId) = some op →
      logTruthy op.log = true →
      σ.processes.find? (fun p => p.id == op.process_id && p.run_id == rid)
        = some pr →
      list_operation_logs σ rid pfx = [opLogItem op]) := by
  have hshallow : ∀ (pfx : String), matchOpDir pfx ≠ none →
      ¬(pfx = "" ∨ pfx = "operations/" ∨ pfx = "operations") := by
    rintro pfx hne (rfl | rfl | rfl)
    · exact hne rfl
    · exact hne rfl
    · exact hne rfl
  refine ⟨?_, ?_, ?_, ?_, ?_, ?_⟩
  · intro σ rid
    rw [list_virtual_directories,
      if_neg (by decide : ¬(("" : String) = "operations/" ∨
        ("" : String) = "operations"))]
    split <;> simp
  · intro σ rid
    rw [list_virtual_directories,
      if_neg (by decide : ¬(("" : String) = "operations/" ∨
        ("" : String) = "operations")), ← opIdsWithLog_ne_nil_iff σ rid]
    by_cases h : opIdsWithLog σ rid ≠ []
    · rw [if_pos ⟨rfl, h⟩]
      simpa using h
    · rw [if_neg (fun hc => h hc.2)]
      simpa using h
  · intro σ rid
    rw [list_virtual_directories,
      if_neg (fun hc => absurd hc.1 (by decide : ¬("operations/" : String) = "")),
      if_pos (Or.inl (rfl : ("operations/" : String) = "operations/"))]
    rw [List.nil_append]
  · intro σ rid
    exact ⟨rfl, rfl, rfl⟩
  · intro σ rid pfx h
    rw [list_operation_logs] at h
    by_cases hsh : (pfx = "" ∨ pfx = "operations/" ∨ pfx = "operations")
    · rw [if_pos hsh] at h
      exact absurd rfl h
    · rw [if_neg hsh] at h
      cases hmd : matchOpDir pfx with
      | none =>
        rw [hmd] at h
        exact absurd rfl h
      | some opId =>
        rw [hmd] at h
        dsimp only at h
        cases hfd : σ.operations.find? (fun op => op.id == opId) with
        | none =>
          rw [hfd] at h
          exact absurd rfl h
        | some op =>
          rw [hfd] at h
          dsimp only at h
          by_cases hlog : logTruthy op.log = true
          · rw [if_pos hlog] at h
            cases hpr : σ.processes.find? (fun p =>
                p.id == op.process_id && p.run_id == rid) with
            | none =>
              rw [hpr] at h
              exact absurd rfl h
            | some pr =>
              refine ⟨opId, op, rfl, hfd, hlog, by rw [hpr]; rfl, ?_⟩
              rw [list_operation_logs, if_neg hsh, hmd]
              dsimp only
              rw [hfd]
              dsimp only
              rw [if_pos hlog, hpr]
              rfl
          · rw [if_neg hlog] at h
            exact absurd rfl h
  · intro σ rid pfx opId op pr hmd hfd hlog hpr
    have hsh := hshallow pfx (fun hc => by rw [hmd] at hc; exact Option.noConfusion hc)
    rw [list_operation_logs, if_neg hsh, hmd]
    dsimp only
    rw [hfd]
    dsimp only
    rw [if_pos hlog, hpr]
    rfl

theorem C6_witness :
    list_operation_logs c6_state 1 "operations/5/" =
      [opLogItem ⟨5, 1, some "hello", none⟩] :=
  C6_relational_hierarchy.2.2.2.2.2 c6_state 1 "operations/5/" 5
    ⟨5, 1, some "hello", none⟩ ⟨1, 1⟩ (by decide) (by decide) (by decide)
    (by decide)

/-! ## C2: batch/single equivalence -/

/-- On an uncached run found by its id, single-run inference computes and
persists exactly the four-way classification of its own two presence
probes. -/
theorem single_mode_is_classify (σ : HALState) (r : Run)
    (hm : r.storage_mode = none) (hf : findRun σ r.id = some r) :
    infer_storage_mode_for_run σ r true = .ok (classifyMode (singleHasS3 σ (effectiveAddress r)) (hasDbLogs σ r.id), { r with storage_mode := some (classifyMode (singleHasS3 σ (effectiveAddress r)) (hasDbLogs σ r.id)) }) := by
  obtain ⟨info, hok, hhyb⟩ := get_storage_info_hybrid_flag σ r.id r hf
  have heff : effAddrOf r.id r.storage_address = effectiveAddress r := rfl
  rw [heff] at hhyb
  simp only [infer_storage_mode_for_run, hm, hok]
  rw [hhyb]
  cases hs : singleHasS3 σ (effectiveAddress r) <;>
    cases hd : hasDbLogs σ r.id <;>
    simp [classifyMode, infer_storage_mode, truthyStr, hm,
      do_infer_storage_mode, hs, hd, StorageMode.value]

/-- C2 counterexample: for one fixed external world (a single object
`runs/5/sub/a.txt`, no relational logs) and a single uncached run, batch
inference persists `"s3"` (it sees the run's common prefix under `runs/`)
while single-run inference persists `"unknown"` (its probe sees no
immediate-child object at `runs/5/`). -/
theorem C2_counterexample :
    (batch_infer_storage_modes deepState [deepRun]).map
      (fun r => r.storage_mode) = [some "s3"] ∧
    infer_storage_mode_for_run deepState deepRun true =
      .ok ("unknown", { deepRun with storage_mode := some "unknown" }) := by
  decide

/-- C2 (amended): batch inference and run-by-run single inference persist
the same mode for every run of the set *provided* the two object-store
presence probes agree on each uncached run — the single probe looks for an
immediate-child object under the run's effective storage address, the
batch probe for any object under `runs/{id}/`.  The relational probes
always agree, and both sides apply the same four-way
hybrid/s3/local/unknown assignment, so the presence agreement is the only
extra hypothesis needed. -/
theorem C2_batch_single_equivalence (σ : HALState) (runs : List Run)
    (hfind : ∀ r ∈ runs, findRun σ r.id = some r)
    (hagree : ∀ r ∈ runs, r.storage_mode = none →
      singleHasS3 σ (effectiveAddress r) =
        (batch_check_s3_presence σ
          ((runs.filter (fun x => x.storage_mode.isNone)).map
            (fun x => x.id))).contains r.id) :
    batch_infer_storage_modes σ runs = runs.map (singlePersist σ) := by
  rw [batch_infer_storage_modes]
  by_cases hnil : runs.filter (fun r => r.storage_mode.isNone) = []
  · rw [if_pos hnil]
    refine (map_eq_self_of_mem ?_).symm
    intro r hr
    have hnn : ¬(r.storage_mode.isNone = true) := by
      intro hc
      have hmem : r ∈ runs.filter (fun r => r.storage_mode.isNone) :=
        List.mem_filter.mpr ⟨hr, hc⟩
      rw [hnil] at hmem
      simp at hmem
    cases hsm : r.storage_mode with
    | none => rw [hsm] at hnn; simp at hnn
    | some m => simp [singlePersist, infer_storage_mode_for_run, hsm]
  · rw [if_neg hnil]
    refine map_congr_of_mem ?_
    intro r hr
    cases hsm : r.storage_mode with
    | some m =>
      rw [if_neg (by simp : ¬((some m : Option String).isNone = true))]
      simp [singlePersist, infer_storage_mode_for_run, hsm]
    | none =>
      rw [if_pos (by decide : ((none : Option String).isNone = true))]
      have hid : r.id ∈ (runs.filter (fun x => x.storage_mode.isNone)).map
          (fun x => x.id) :=
        List.mem_map.mpr ⟨r, List.mem_filter.mpr ⟨hr, by rw [hsm]; rfl⟩, rfl⟩
      have hdb : (batch_check_db_logs σ
          ((runs.filter (fun x => x.storage_mode.isNone)).map
            (fun x => x.id))).contains r.id = hasDbLogs σ r.id := by
        rw [batch_check_db_logs]
        exact contains_filter_of_mem hid
      have hs3 := hagree r hr hsm
      have hsingle := single_mode_is_classify σ r hsm (hfind r hr)
      rw [singlePersist, hsingle]
      dsimp only
      rw [← hs3, hdb]

def c2w_runA : Run := ⟨1, none, some "local", false⟩

def c2w_runB : Run := ⟨2, none, none, false⟩

def c2w_state : HALState :=
  ⟨[⟨"runs/2/f.txt", 1, none, "d"⟩], false, [], false, "bkt",
   [c2w_runA, c2w_runB], [], []⟩

theorem C2_witness :
    batch_infer_storage_modes c2w_state [c2w_runA, c2w_runB] =
      [c2w_runA, c2w_runB].map (singlePersist c2w_state) :=
  C2_batch_single_equivalence c2w_state [c2w_runA, c2w_runB]
    (by decide) (by decide)

end LabHAL
